import Mathlib

/-!
Verification of the Supabase-DB monitoring and backup scripts.

This file gives a shallow embedding of

* `src/unnamed/part_000` (the backup script: `cleanOldBackups`, `backupDatabase`),
* `src/scripts/monitor-database.ts` (`DatabaseMonitor.checkSystem`,
  `handleDataLoss`, `createBackup`, `updateSystemStatus`), and
* `src/migrations/20250224001000_add_system_status.sql`
  (the `increment_error_count` trigger on `system_status`),

and proves or refutes the testable properties of the specification.

Modelling conventions:

* JS numbers used as timestamps/sizes are embedded as `Int`; exact row
  counts as `Nat`.  The 10% data-loss threshold `count < prev - prev*0.1`
  is embedded over `ℚ` (the float rounding of `0.1` is below the
  granularity of the integer comparisons involved here).
* The filesystem of the backup directory is a list of files (`name`,
  `mtime`).  `fs.unlinkSync` on a missing path throws `ENOENT`; this is
  embedded by `unlinkSeq` aborting and returning the partially-updated
  directory state together with the offending path.
* The audit store is a list of `StatusRecord`s in insertion order; a
  supabase `insert` appends one record.  (The monitor swallows insert
  errors, so the monitor-level model treats the insert itself as
  succeeding; the SQL trigger is modelled separately where a claim is
  about the SQL layer.)
* `supabase.from(..).order('last_backup_time', { ascending: false })`
  compiles to `ORDER BY last_backup_time DESC`, whose PostgreSQL default
  null ordering is `NULLS FIRST`; `lastBackupQuery` embeds exactly that.
-/

namespace SupabaseDB

/-! ## Backup executor (`src/unnamed/part_000`) -/

/-- A backup artifact in the backup directory: file name and mtime (ms). -/
structure BFile where
  name : String
  time : Int
deriving DecidableEq, Repr

/-- Retention configuration: `MAX_BACKUPS` and `BACKUP_RETENTION_DAYS`. -/
structure RetCfg where
  maxBackups : Nat
  retentionDays : Nat
deriving DecidableEq, Repr

def msPerDay : Int := 24 * 60 * 60 * 1000

/-- The sort comparator `(a, b) => b.time - a.time`: modification time
descending (`a` sorts no later than `b` iff `b.time ≤ a.time`). -/
def descByTime (a b : BFile) : Bool := decide (b.time ≤ a.time)

/-- Insert `a` before the first element `b` with `le a b`. -/
def insertBy (le : α → α → Bool) (a : α) : List α → List α
  | [] => [a]
  | b :: bs => if le a b then a :: b :: bs else b :: insertBy le a bs

/-- Stable insertion sort.  `Array.prototype.sort` is stable (ES2019),
so a stable sort is the faithful embedding of the comparator sort; an
insertion sort is chosen because it is structurally recursive. -/
def sortBy (le : α → α → Bool) : List α → List α
  | [] => []
  | a :: as => insertBy le a (sortBy le as)

/-- Sequentially `fs.unlinkSync` each path.  Unlinking a path that is not
present throws `ENOENT`, which aborts the remaining deletions; the first
component is the offending path (`none` if every unlink succeeded), the
second is the directory state reached. -/
def unlinkSeq : List String → List BFile → Option String × List BFile
  | [], fs => (none, fs)
  | p :: rest, fs =>
    if fs.any (fun f => f.name = p) then
      unlinkSeq rest (fs.filter (fun f => ¬ f.name = p))
    else
      (some p, fs)

/-- Pass 1 of `cleanOldBackups`: the paths deleted by the `MAX_BACKUPS`
rule (`files.slice(MAX_BACKUPS)` of the time-descending listing). -/
def countDeletions (cfg : RetCfg) (files : List BFile) : List String :=
  if files.length > cfg.maxBackups then (files.drop cfg.maxBackups).map BFile.name else []

/-- Pass 2 of `cleanOldBackups`: the paths selected by the
`RETENTION_DAYS` rule (`now - file.time > retentionMs`), taken over the
same listing snapshot as pass 1. -/
def ageDeletions (cfg : RetCfg) (now : Int) (files : List BFile) : List String :=
  (files.filter (fun f => decide (now - f.time > cfg.retentionDays * msPerDay))).map BFile.name

/-- Function `cleanOldBackups` from `src/unnamed/part_000` lines 32-59: list the
`.sql.gz` files, sort by mtime descending, delete everything beyond
`MAX_BACKUPS`, then delete everything older than `RETENTION_DAYS`
(iterating over the stale pre-deletion listing). -/
def cleanOldBackups (cfg : RetCfg) (now : Int) (dir : List BFile) : Option String × List BFile :=
  let files := sortBy descByTime dir
  unlinkSeq (countDeletions cfg files ++ ageDeletions cfg now files) dir

/-! ## Status records (the `system_status` table) -/

inductive HStatus
  | healthy
  | warning
  | error
deriving DecidableEq, Repr

/-- Rank with `healthy < warning < error` ("error outranks warning outranks healthy"). -/
def HStatus.rank : HStatus → Nat
  | .healthy => 0
  | .warning => 1
  | .error => 2

inductive RStatus
  | initialized
  | reset
  | backup
  | restore
  | error
deriving DecidableEq, Repr

/-- One row of `system_status` (the fields the scripts read or write;
the opaque `last_known_state` payload is not modelled). -/
structure StatusRecord where
  status : RStatus
  lastBackupTime : Option Int
  errorCount : Nat
deriving DecidableEq, Repr

/-! ## SQL layer (`src/migrations/20250224001000_add_system_status.sql`) -/

/-- The `increment_error_count` BEFORE INSERT OR UPDATE trigger:
`IF NEW.status = 'error' THEN NEW.error_count := COALESCE(OLD.error_count, 0) + 1`.
For an INSERT the `OLD` row does not exist (PL/pgSQL leaves the record
unassigned), so `COALESCE(OLD.error_count, 0)` is modelled as `0`. -/
def sqlTriggerInsert (r : StatusRecord) : StatusRecord :=
  if r.status = .error then { r with errorCount := 0 + 1 } else r

/-- An INSERT into `system_status`, with the row trigger applied. -/
def insertRow (tbl : List StatusRecord) (r : StatusRecord) : List StatusRecord :=
  tbl ++ [sqlTriggerInsert r]

/-- The largest `error_count` stored in the table. -/
def maxErrorCount (tbl : List StatusRecord) : Nat :=
  tbl.foldl (fun a r => Nat.max a r.errorCount) 0

/-- Perform `n` consecutive INSERTs of records with `status = 'error'`. -/
def appendErrorRows : Nat → List StatusRecord → List StatusRecord
  | 0, tbl => tbl
  | n + 1, tbl =>
    appendErrorRows n (insertRow tbl { status := .error, lastBackupTime := none, errorCount := 0 })

/-! ## Monitor (`src/scripts/monitor-database.ts`) -/

/-- The in-memory `SystemState` of the monitor. -/
structure SystemState where
  status : HStatus
  tables : List (String × Nat)
  lastBackup : Option Int
  warnings : List String
  errors : List String
deriving DecidableEq, Repr

/-- Outcome of one per-table exact count. -/
inductive CountRes
  | err (msg : String)
  | ok (n : Nat)
deriving DecidableEq, Repr

/-- The external inputs of one tick: connectivity, the per-table count
results, whether `backupDatabase()` succeeds when invoked, and the clock. -/
structure TickEnv where
  connectivityOk : Bool
  countRes : String → CountRes
  backupOk : Bool
  now : Int

def CRITICAL_TABLES : List String := ["user_profiles", "schools", "school_users", "content"]

/-- The data-loss warning string (line 96 of `monitor-database.ts`). -/
def dlMsg (t : String) (p c : Nat) : String :=
  "Significant data loss detected in " ++ t ++ ": Previous=" ++ toString p
    ++ ", Current=" ++ toString c

/-- Check `count < previousCount - threshold` with `threshold = previousCount * 0.1`. -/
def lossCheck (p c : Nat) : Bool :=
  decide ((c : ℚ) < (p : ℚ) - (p : ℚ) * 0.1)

/-- The row `backupDatabase` inserts via psql on success:
`(status, last_known_state, last_backup_time) = ('backup', ..., CURRENT_TIMESTAMP)`. -/
def backupRecord (now : Int) : StatusRecord :=
  { status := .backup, lastBackupTime := some now, errorCount := 0 }

/-- The incident row `handleDataLoss` inserts (`status: 'error'`). -/
def incidentRecord : StatusRecord :=
  { status := .error, lastBackupTime := none, errorCount := 0 }

/-- The row `updateSystemStatus` inserts:
`status: state.status === 'healthy' ? 'initialized' : 'error'`,
`error_count: state.errors.length`. -/
def auditRecord (st : SystemState) : StatusRecord :=
  { status := if st.status = .healthy then .initialized else .error
    lastBackupTime := none
    errorCount := st.errors.length }

/-- Lookup `this.lastKnownState?.tables[table]` (value lookup; `undefined` when
there is no previous state or no entry for the table). -/
def lookupPrev (lk : Option SystemState) (t : String) : Option Nat :=
  match lk with
  | none => none
  | some s => s.tables.lookup t

/-- Loop accumulator of `checkSystem`'s per-table `for` loop: the mutable
`state`, the records inserted so far this tick, and how many times
`createBackup()` has been invoked. -/
structure LoopAcc where
  st : SystemState
  appended : List StatusRecord
  backupAttempts : Nat

/-- One iteration of the `for (const table of this.CRITICAL_TABLES)` loop
(lines 77-104): record the count or the error; when the previous state
holds a truthy count for this table and the new count dropped by more
than 10%, push the warning, set `status = 'warning'` and run
`handleDataLoss` (which runs `createBackup()` and, only when the backup
succeeded, also logs an incident row; its `catch` swallows failures). -/
def processTable (lk : Option SystemState) (backupOk : Bool) (now : Int)
    (acc : LoopAcc) (tc : String × CountRes) : LoopAcc :=
  match tc.2 with
  | .err m =>
    { acc with
      st := { acc.st with
              errors := acc.st.errors ++ ["Error checking table " ++ tc.1 ++ ": " ++ m] } }
  | .ok c =>
    let st1 := { acc.st with tables := acc.st.tables ++ [(tc.1, c)] }
    match lookupPrev lk tc.1 with
    | some p =>
      if p ≠ 0 then
        if lossCheck p c then
          let st2 := { st1 with
                       warnings := st1.warnings ++ [dlMsg tc.1 p c]
                       status := .warning }
          if backupOk then
            { st := st2
              appended := acc.appended ++ [backupRecord now, incidentRecord]
              backupAttempts := acc.backupAttempts + 1 }
          else
            { st := st2, appended := acc.appended, backupAttempts := acc.backupAttempts + 1 }
        else { acc with st := st1 }
      else { acc with st := st1 }
    | none => { acc with st := st1 }

def initialTickState : SystemState :=
  { status := .healthy, tables := [], lastBackup := none, warnings := [], errors := [] }

/-- The whole `for (const table of this.CRITICAL_TABLES)` loop of one tick. -/
def runTables (lk : Option SystemState) (env : TickEnv) : LoopAcc :=
  CRITICAL_TABLES.foldl
    (fun a t => processTable lk env.backupOk env.now a (t, env.countRes t))
    { st := initialTickState, appended := [], backupAttempts := 0 }

/-- The data-loss warning (if any) that the loop body emits for table `t`:
none on a count error, none when the previous state has no truthy count
for `t`, and the formatted message when the drop exceeds the threshold. -/
def dlWarn (lk : Option SystemState) (cr : String → CountRes) (t : String) : Option String :=
  match cr t with
  | .err _ => none
  | .ok c =>
    match lookupPrev lk t with
    | some p => if p ≠ 0 then (if lossCheck p c then some (dlMsg t p c) else none) else none
    | none => none

/-- Lines 128-133: `errors` force `'error'`, otherwise `warnings` force
`'warning'`, otherwise the status is left as is. -/
def finalizeStatus (st : SystemState) : SystemState :=
  if st.errors.length > 0 then { st with status := .error }
  else if st.warnings.length > 0 then { st with status := .warning }
  else st

/-- Whether `a` sorts no later than `b` under `ORDER BY last_backup_time DESC`
with PostgreSQL's default null ordering for DESC, `NULLS FIRST`. -/
def nullsFirstDesc (a b : Option Int) : Bool :=
  match a, b with
  | none, _ => true
  | some _, none => false
  | some x, some y => decide (y ≤ x)

/-- Lines 107-112: `select('last_backup_time').order('last_backup_time',
{ ascending: false }).limit(1).single()`.  Returns `none` when the table
is empty (`.single()` errors and `data` is `null`), otherwise the
`last_backup_time` of the first row of the DESC NULLS FIRST ordering. -/
def lastBackupQuery (store : List StatusRecord) : Option (Option Int) :=
  ((sortBy (fun r s => nullsFirstDesc r.lastBackupTime s.lastBackupTime) store).head?).map
    (fun r => r.lastBackupTime)

/-- Spec-side definition, for comparison only.  Modelled from the spec:
"`latestBackupTime()` returns the most recent non-null backup timestamp
across history". -/
def specLatestBackupTime (store : List StatusRecord) : Option Int :=
  (store.filterMap (fun r => r.lastBackupTime)).max?

def staleLimitMs : Int := 24 * 60 * 60 * 1000

def connFailMsg : String := "Database connection failed"

def backupFailMsg : String := "Backup failed"

/-- Result of one tick of `checkSystem`. -/
structure TickResult where
  appended : List StatusRecord
  finalState : SystemState
  newLastKnown : Option SystemState
  completed : Bool
  backupAttempts : Nat

/-- Method `DatabaseMonitor.checkSystem` (lines 62-151), one tick: connectivity
check (a failure is thrown into the `catch`, which records an error
state and leaves `lastKnownState` untouched); the per-table loop; the
last-backup staleness check (whose `createBackup()` is *not* guarded, so
a backup failure is thrown into the `catch`); status finalization;
`updateSystemStatus` and the `this.lastKnownState = state` baseline
replacement, which only the non-throwing path reaches. -/
def checkSystem (lk : Option SystemState) (store : List StatusRecord) (env : TickEnv) :
    TickResult :=
  if env.connectivityOk then
    let acc := runTables lk env
    match lastBackupQuery (store ++ acc.appended) with
    | some (some t) =>
      let st2 := { acc.st with lastBackup := some t }
      if env.now - t > staleLimitMs then
        let st3 := { st2 with warnings := st2.warnings ++ ["No recent backup found (>24 hours)"] }
        if env.backupOk then
          let fin := finalizeStatus st3
          { appended := acc.appended ++ [backupRecord env.now] ++ [auditRecord fin]
            finalState := fin, newLastKnown := some fin, completed := true
            backupAttempts := acc.backupAttempts + 1 }
        else
          let fin := { st3 with status := .error, errors := st3.errors ++ [backupFailMsg] }
          { appended := acc.appended ++ [auditRecord fin]
            finalState := fin, newLastKnown := lk, completed := false
            backupAttempts := acc.backupAttempts + 1 }
      else
        let fin := finalizeStatus st2
        { appended := acc.appended ++ [auditRecord fin]
          finalState := fin, newLastKnown := some fin, completed := true
          backupAttempts := acc.backupAttempts }
    | _ =>
      let st3 := { acc.st with warnings := acc.st.warnings ++ ["No backup history found"] }
      if env.backupOk then
        let fin := finalizeStatus st3
        { appended := acc.appended ++ [backupRecord env.now] ++ [auditRecord fin]
          finalState := fin, newLastKnown := some fin, completed := true
          backupAttempts := acc.backupAttempts + 1 }
      else
        let fin := { st3 with status := .error, errors := st3.errors ++ [backupFailMsg] }
        { appended := acc.appended ++ [auditRecord fin]
          finalState := fin, newLastKnown := lk, completed := false
          backupAttempts := acc.backupAttempts + 1 }
  else
    let st := { initialTickState with status := .error, errors := [connFailMsg] }
    { appended := [auditRecord st], finalState := st, newLastKnown := lk, completed := false
      backupAttempts := 0 }

/-! ## Backup run (`backupDatabase`, `src/unnamed/part_000` lines 61-118) -/

/-- Inputs of one `backupDatabase()` run: the pre-existing artifacts, the
size of the file the dump pipeline produced (`none` when no file was
created), and the clock. -/
structure BackupEnv where
  dir : List BFile
  dumpSize : Option Int
  now : Int

structure BackupOutcome where
  success : Bool
  sweepRan : Bool
  fsAfter : List BFile
  appended : List StatusRecord
deriving DecidableEq, Repr

/-- The timestamp-named artifact path `db_backup_<timestamp>.sql.gz`. -/
def newArtifactName (now : Int) : String := "db_backup_" ++ toString now ++ ".sql.gz"

/-- The artifact file the dump pipeline writes. -/
def newArtifact (now : Int) : BFile := { name := newArtifactName now, time := now }

/-- Function `backupDatabase()`: run the dump; verify the artifact exists and is
non-empty (else throw, caught: `success: false`); run `cleanOldBackups`
(an exception there is also caught: `success: false`, and the psql
status insert is skipped); insert the `'backup'` status row; return
success. -/
def backupDatabase (cfg : RetCfg) (env : BackupEnv) : BackupOutcome :=
  match env.dumpSize with
  | none =>
    { success := false, sweepRan := false, fsAfter := env.dir, appended := [] }
  | some sz =>
    let dir' := env.dir ++ [newArtifact env.now]
    if sz = 0 then
      { success := false, sweepRan := false, fsAfter := dir', appended := [] }
    else
      match cleanOldBackups cfg env.now dir' with
      | (some _, fs') =>
        { success := false, sweepRan := true, fsAfter := fs', appended := [] }
      | (none, fs') =>
        { success := true, sweepRan := true, fsAfter := fs', appended := [backupRecord env.now] }

/-! ## Derived notions used to state properties of the retention sweep -/

/-- Check `now - file.time > retentionMs`: the file is older than the retention window. -/
def oldCheck (cfg : RetCfg) (now : Int) (f : BFile) : Bool :=
  decide (now - f.time > cfg.retentionDays * msPerDay)

/-- The directory listing sorted by mtime descending (the `files` local
of `cleanOldBackups`). -/
def sortedFiles (dir : List BFile) : List BFile := sortBy descByTime dir

/-- Names of the artifacts ranked beyond `maxBackups`. -/
def dropNames (cfg : RetCfg) (dir : List BFile) : List String :=
  ((sortedFiles dir).drop cfg.maxBackups).map BFile.name

/-- Names of the artifacts within the `maxBackups` newest that are older
than the retention window. -/
def oldKeptNames (cfg : RetCfg) (now : Int) (dir : List BFile) : List String :=
  (((sortedFiles dir).take cfg.maxBackups).filter (oldCheck cfg now)).map BFile.name

/-- Names of the artifacts ranked beyond `maxBackups` that are *also*
older than the retention window: exactly the paths `cleanOldBackups`
tries to unlink twice. -/
def oldDropNames (cfg : RetCfg) (now : Int) (dir : List BFile) : List String :=
  (((sortedFiles dir).drop cfg.maxBackups).filter (oldCheck cfg now)).map BFile.name

/-- The directory state `cleanOldBackups` leaves behind. -/
def sweepSurvivors (cfg : RetCfg) (now : Int) (dir : List BFile) : List BFile :=
  (dir.filter (fun f => decide (f.name ∉ dropNames cfg dir))).filter
    (fun f => decide (f.name ∉ oldKeptNames cfg now dir))

/-! ## Concrete instances used by counterexamples and witnesses -/

/-- A tick with reachable database, zero counts, no baseline, backups
succeeding. -/
def tickPlainEnv : TickEnv :=
  { connectivityOk := true, countRes := fun _ => .ok 0, backupOk := true, now := 0 }

/-- A tick whose connectivity round-trip fails. -/
def tickConnFailEnv : TickEnv :=
  { connectivityOk := false, countRes := fun _ => .ok 0, backupOk := true, now := 0 }

/-- A tick with reachable database but a failing backup executor. -/
def tickBackupFailEnv : TickEnv :=
  { connectivityOk := true, countRes := fun _ => .ok 0, backupOk := false, now := 0 }

/-- A baseline that remembers 100 rows in `user_profiles`. -/
def lossBaseline : SystemState :=
  { status := .healthy, tables := [("user_profiles", 100)], lastBackup := none,
    warnings := [], errors := [] }

/-- A tick observing 85 rows in `user_profiles` (a 15% drop). -/
def lossTickEnv : TickEnv :=
  { connectivityOk := true
    countRes := fun t => if t = "user_profiles" then .ok 85 else .ok 0
    backupOk := true, now := 0 }

/-- A fresh `system_status` table holding only the migration's
`'initialized'` row. -/
def initRow : StatusRecord := { status := .initialized, lastBackupTime := none, errorCount := 0 }

/-- A backup run whose dump produced a valid 5-byte artifact at a time
when the one pre-existing artifact is both beyond `maxBackups = 1` and
older than `retentionDays = 0`. -/
def overlapBackupEnv : BackupEnv :=
  { dir := [{ name := "old", time := 0 }], dumpSize := some 5, now := 864000000 }

end SupabaseDB

namespace SupabaseDB

/-! # Theorems -/

/-! ## Generic facts about the stable insertion sort and `unlinkSeq` -/

theorem insertBy_perm (le : α → α → Bool) (a : α) (l : List α) :
    List.Perm (insertBy le a l) (a :: l) := by
  induction l with
  | nil => simp [insertBy]
  | cons b bs ih =>
    simp only [insertBy]
    split
    · exact List.Perm.refl _
    · exact (List.Perm.cons b ih).trans (List.Perm.swap a b bs)

theorem sortBy_perm (le : α → α → Bool) (l : List α) : List.Perm (sortBy le l) l := by
  induction l with
  | nil => simp [sortBy]
  | cons a as ih => exact (insertBy_perm le a (sortBy le as)).trans (ih.cons a)

theorem sortedFiles_perm (dir : List BFile) : List.Perm (sortedFiles dir) dir :=
  sortBy_perm descByTime dir

theorem unlinkSeq_append (p₁ p₂ : List String) (fs : List BFile) :
    unlinkSeq (p₁ ++ p₂) fs =
      match unlinkSeq p₁ fs with
      | (none, fs1) => unlinkSeq p₂ fs1
      | (some e, fs1) => (some e, fs1) := by
  induction p₁ generalizing fs with
  | nil => simp [unlinkSeq]
  | cons p rest ih =>
    simp only [List.cons_append, unlinkSeq]
    split
    · exact ih _
    · rfl

theorem unlinkSeq_all_present (paths : List String) (fs : List BFile)
    (hnd : paths.Nodup) (hsub : ∀ p ∈ paths, p ∈ fs.map BFile.name) :
    unlinkSeq paths fs = (none, fs.filter (fun f => decide (f.name ∉ paths))) := by
  induction paths generalizing fs with
  | nil => simp [unlinkSeq]
  | cons p rest ih =>
    have hp : p ∈ fs.map BFile.name := hsub p (List.mem_cons_self p rest)
    obtain ⟨g, hg, hgname⟩ := List.mem_map.mp hp
    have hany : (fs.any fun f => decide (f.name = p)) = true :=
      List.any_eq_true.mpr ⟨g, hg, by simp [hgname]⟩
    have hnd' : rest.Nodup := hnd.of_cons
    have hpnot : p ∉ rest := (List.nodup_cons.mp hnd).1
    have hsub' : ∀ q ∈ rest, q ∈ (fs.filter (fun f => decide (¬ f.name = p))).map BFile.name := by
      intro q hq
      obtain ⟨g', hg', hg'name⟩ := List.mem_map.mp (hsub q (List.mem_cons_of_mem p hq))
      refine List.mem_map.mpr ⟨g', List.mem_filter.mpr ⟨hg', ?_⟩, hg'name⟩
      have : ¬ g'.name = p := by
        intro h
        exact hpnot (by rw [← h, hg'name]; exact hq)
      simpa using this
    calc unlinkSeq (p :: rest) fs
        = unlinkSeq rest (fs.filter (fun f => decide (¬ f.name = p))) := by
          simp only [unlinkSeq, hany, if_true]
      _ = (none, (fs.filter (fun f => decide (¬ f.name = p))).filter
            (fun f => decide (f.name ∉ rest))) := ih _ hnd' hsub'
      _ = (none, fs.filter (fun f => decide (f.name ∉ p :: rest))) := by
          rw [List.filter_filter]
          congr 1
          apply List.filter_congr
          intro f _
          by_cases h1 : f.name = p <;> by_cases h2 : f.name ∈ rest <;>
            simp [h1, h2]

theorem unlinkSeq_stuck (paths : List String) (fs : List BFile) (p : String)
    (hp : p ∈ paths) (habs : p ∉ fs.map BFile.name) :
    (unlinkSeq paths fs).1.isSome := by
  induction paths generalizing fs with
  | nil => cases hp
  | cons q rest ih =>
    simp only [unlinkSeq]
    split
    · rcases List.mem_cons.mp hp with rfl | hp'
      · rename_i hq
        obtain ⟨g, hg, hgname⟩ := List.any_eq_true.mp hq
        exact absurd (List.mem_map.mpr ⟨g, hg, by simpa using hgname⟩) habs
      · apply ih _ hp'
        intro hmem
        obtain ⟨g, hg, hgname⟩ := List.mem_map.mp hmem
        exact habs (List.mem_map.mpr ⟨g, (List.mem_filter.mp hg).1, hgname⟩)
    · rfl

/-! ## Anatomy of `cleanOldBackups` -/

theorem countDeletions_eq (cfg : RetCfg) (files : List BFile) :
    countDeletions cfg files = (files.drop cfg.maxBackups).map BFile.name := by
  unfold countDeletions
  split
  · rfl
  · rename_i h
    rw [List.drop_eq_nil_of_le (by omega)]
    rfl

theorem ageDeletions_split (cfg : RetCfg) (now : Int) (dir : List BFile) :
    ageDeletions cfg now (sortedFiles dir)
      = oldKeptNames cfg now dir ++ oldDropNames cfg now dir := by
  show ((sortedFiles dir).filter (oldCheck cfg now)).map BFile.name = _
  conv_lhs => rw [← List.take_append_drop cfg.maxBackups (sortedFiles dir)]
  rw [List.filter_append, List.map_append]
  rfl

theorem sortedNames_nodup (dir : List BFile) (hnd : (dir.map BFile.name).Nodup) :
    ((sortedFiles dir).map BFile.name).Nodup :=
  ((sortedFiles_perm dir).map BFile.name).nodup_iff.mpr hnd

/-- The names of the kept (`take`) region and of the deleted (`drop`)
region are disjoint when the directory has no duplicate names. -/
theorem take_drop_names_disjoint (cfg : RetCfg) (dir : List BFile)
    (hnd : (dir.map BFile.name).Nodup) :
    List.Disjoint (((sortedFiles dir).take cfg.maxBackups).map BFile.name)
      (dropNames cfg dir) := by
  have hsplit : (sortedFiles dir).map BFile.name
      = ((sortedFiles dir).take cfg.maxBackups).map BFile.name
        ++ ((sortedFiles dir).drop cfg.maxBackups).map BFile.name := by
    rw [← List.map_append, List.take_append_drop]
  have := sortedNames_nodup dir hnd
  rw [hsplit] at this
  exact (List.nodup_append.mp this).2.2

/-- Master anatomy theorem: with distinct artifact names, the sweep ends
in the state that keeps exactly the young artifacts of the `maxBackups`
newest, and it throws `ENOENT` exactly when some artifact beyond
`maxBackups` is also past the retention window (the first such path). -/
theorem cleanOldBackups_eq (cfg : RetCfg) (now : Int) (dir : List BFile)
    (hnd : (dir.map BFile.name).Nodup) :
    cleanOldBackups cfg now dir
      = ((oldDropNames cfg now dir).head?, sweepSurvivors cfg now dir) := by
  have hfilesnd := sortedNames_nodup dir hnd
  have hdisj := take_drop_names_disjoint cfg dir hnd
  -- pass 1: the `maxBackups` deletions all succeed
  have hdnd : (dropNames cfg dir).Nodup :=
    hfilesnd.sublist ((List.drop_sublist _ _).map BFile.name)
  have hdsub : ∀ p ∈ dropNames cfg dir, p ∈ dir.map BFile.name := by
    intro p hp
    obtain ⟨g, hg, rfl⟩ := List.mem_map.mp hp
    exact List.mem_map.mpr
      ⟨g, (sortedFiles_perm dir).mem_iff.mp (List.mem_of_mem_drop hg), rfl⟩
  -- pass 2, young part: deletions of old artifacts still present succeed
  have hknd : (oldKeptNames cfg now dir).Nodup :=
    hfilesnd.sublist
      (((List.filter_sublist _).trans (List.take_sublist _ _)).map BFile.name)
  have hksub : ∀ p ∈ oldKeptNames cfg now dir,
      p ∈ (dir.filter (fun f => decide (f.name ∉ dropNames cfg dir))).map BFile.name := by
    intro p hp
    obtain ⟨g, hgf, rfl⟩ := List.mem_map.mp hp
    have hgtake : g ∈ (sortedFiles dir).take cfg.maxBackups := (List.mem_filter.mp hgf).1
    have hgdir : g ∈ dir := (sortedFiles_perm dir).mem_iff.mp (List.mem_of_mem_take hgtake)
    have hgnot : g.name ∉ dropNames cfg dir :=
      hdisj (List.mem_map.mpr ⟨g, hgtake, rfl⟩)
    exact List.mem_map.mpr ⟨g, List.mem_filter.mpr ⟨hgdir, by simpa using hgnot⟩, rfl⟩
  show unlinkSeq
      (countDeletions cfg (sortedFiles dir) ++ ageDeletions cfg now (sortedFiles dir)) dir = _
  rw [countDeletions_eq, ageDeletions_split, unlinkSeq_append,
    show ((sortedFiles dir).drop cfg.maxBackups).map BFile.name = dropNames cfg dir from rfl,
    unlinkSeq_all_present _ _ hdnd hdsub]
  simp only []
  rw [unlinkSeq_append, unlinkSeq_all_present _ _ hknd hksub]
  simp only []
  rcases h : oldDropNames cfg now dir with _ | ⟨q, qs⟩
  · rfl
  · have hq : q ∈ dropNames cfg dir := by
      have : q ∈ oldDropNames cfg now dir := by rw [h]; exact List.mem_cons_self q qs
      obtain ⟨g, hgf, rfl⟩ := List.mem_map.mp this
      exact List.mem_map.mpr ⟨g, (List.mem_filter.mp hgf).1, rfl⟩
    have hany : (((dir.filter (fun f => decide (f.name ∉ dropNames cfg dir))).filter
        (fun f => decide (f.name ∉ oldKeptNames cfg now dir))).any
          fun f => decide (f.name = q)) = false := by
      rw [Bool.eq_false_iff]
      intro hcon
      obtain ⟨g, hg, hgq⟩ := List.any_eq_true.mp hcon
      have hg1 := (List.mem_filter.mp (List.mem_filter.mp hg).1).2
      have : g.name ∉ dropNames cfg dir := by simpa using hg1
      exact this (by rw [show g.name = q by simpa using hgq]; exact hq)
    simp only [unlinkSeq, hany]
    rfl

/-! ## Consequences of the anatomy -/

theorem sweepSurvivors_subset_take (cfg : RetCfg) (now : Int) (dir : List BFile) :
    ∀ f ∈ sweepSurvivors cfg now dir, f ∈ (sortedFiles dir).take cfg.maxBackups := by
  intro f hf
  have hf1 := List.mem_filter.mp hf
  have hf2 := List.mem_filter.mp hf1.1
  have hfdir : f ∈ sortedFiles dir := (sortedFiles_perm dir).mem_iff.mpr hf2.1
  have hnotdrop : f.name ∉ dropNames cfg dir := by simpa using hf2.2
  rcases List.mem_append.mp
      ((List.take_append_drop cfg.maxBackups (sortedFiles dir)) ▸ hfdir) with h | h
  · exact h
  · exact absurd (List.mem_map.mpr ⟨f, h, rfl⟩) hnotdrop

theorem sweepSurvivors_length (cfg : RetCfg) (now : Int) (dir : List BFile)
    (hnd : (dir.map BFile.name).Nodup) :
    (sweepSurvivors cfg now dir).length ≤ cfg.maxBackups := by
  have hnodup : (sweepSurvivors cfg now dir).Nodup :=
    ((List.Nodup.of_map BFile.name hnd).filter _).filter _
  have hsub : sweepSurvivors cfg now dir ⊆ (sortedFiles dir).take cfg.maxBackups :=
    fun f hf => sweepSurvivors_subset_take cfg now dir f hf
  calc (sweepSurvivors cfg now dir).length
      ≤ ((sortedFiles dir).take cfg.maxBackups).length :=
        (List.subperm_of_subset hnodup hsub).length_le
    _ ≤ cfg.maxBackups := by rw [List.length_take]; omega

theorem sweepSurvivors_young (cfg : RetCfg) (now : Int) (dir : List BFile) :
    ∀ f ∈ sweepSurvivors cfg now dir, now - f.time ≤ cfg.retentionDays * msPerDay := by
  intro f hf
  by_contra hcon
  have htake := sweepSurvivors_subset_take cfg now dir f hf
  have hkept : f.name ∈ oldKeptNames cfg now dir :=
    List.mem_map.mpr
      ⟨f, List.mem_filter.mpr ⟨htake, by simp [oldCheck]; omega⟩, rfl⟩
  have := (List.mem_filter.mp hf).2
  simp only [decide_eq_true_eq] at this
  exact this hkept

theorem cleanOldBackups_stable (cfg : RetCfg) (now : Int) (fs : List BFile)
    (hlen : fs.length ≤ cfg.maxBackups)
    (hyoung : ∀ f ∈ fs, now - f.time ≤ cfg.retentionDays * msPerDay) :
    cleanOldBackups cfg now fs = (none, fs) := by
  have hlen' : (sortBy descByTime fs).length = fs.length := (sortBy_perm descByTime fs).length_eq
  have h1 : countDeletions cfg (sortBy descByTime fs) = [] := by
    unfold countDeletions
    rw [if_neg (by omega)]
  have h2 : ageDeletions cfg now (sortBy descByTime fs) = [] := by
    show ((sortBy descByTime fs).filter _).map BFile.name = []
    rw [List.filter_eq_nil_iff.mpr]
    · rfl
    · intro f hf
      have := hyoung f ((sortBy_perm descByTime fs).mem_iff.mp hf)
      simp only [decide_eq_true_eq]
      omega
  show unlinkSeq (countDeletions cfg (sortBy descByTime fs)
    ++ ageDeletions cfg now (sortBy descByTime fs)) fs = _
  rw [h1, h2]
  rfl

/-! ## Claim C7 -/

/-- C7: for every artifact set (with distinct artifact names, as in a real
directory) and every non-negative configuration, if the retention sweep
completes then at most `maxCount` artifacts survive and no surviving
artifact is older than `maxAgeDays`. -/
theorem c7_retention_bounds (cfg : RetCfg) (now : Int) (dir : List BFile)
    (hnd : (dir.map BFile.name).Nodup)
    (hdone : (cleanOldBackups cfg now dir).1 = none) :
    (cleanOldBackups cfg now dir).2.length ≤ cfg.maxBackups ∧
      ∀ f ∈ (cleanOldBackups cfg now dir).2, now - f.time ≤ cfg.retentionDays * msPerDay := by
  rw [cleanOldBackups_eq cfg now dir hnd]
  exact ⟨sweepSurvivors_length cfg now dir hnd, sweepSurvivors_young cfg now dir⟩

theorem c7_retention_bounds_witness :
    (cleanOldBackups ⟨2, 1⟩ 2 [⟨"a", 0⟩, ⟨"b", 1⟩]).2.length ≤ 2 :=
  (c7_retention_bounds ⟨2, 1⟩ 2 [⟨"a", 0⟩, ⟨"b", 1⟩] (by decide) (by decide)).1

/-! ## Claim C9 -/

/-- C9: the retention sweep is idempotent: a second run on the directory
state left by a first run (no artifacts added in between) deletes
nothing and raises no error, so the surviving set is unchanged.  This
holds even when the first run aborted with `ENOENT`: by then the age
pass has already deleted every stale artifact it can reach. -/
theorem c9_retention_idempotent (cfg : RetCfg) (now : Int) (dir : List BFile)
    (hnd : (dir.map BFile.name).Nodup) :
    cleanOldBackups cfg now ((cleanOldBackups cfg now dir).2)
      = (none, (cleanOldBackups cfg now dir).2) := by
  rw [cleanOldBackups_eq cfg now dir hnd]
  exact cleanOldBackups_stable cfg now _ (sweepSurvivors_length cfg now dir hnd)
    (sweepSurvivors_young cfg now dir)

theorem c9_retention_idempotent_witness :
    cleanOldBackups ⟨1, 0⟩ 864000000
        ((cleanOldBackups ⟨1, 0⟩ 864000000 [⟨"a", 864000000⟩, ⟨"b", 0⟩]).2)
      = (none, (cleanOldBackups ⟨1, 0⟩ 864000000 [⟨"a", 864000000⟩, ⟨"b", 0⟩]).2) :=
  c9_retention_idempotent ⟨1, 0⟩ 864000000 [⟨"a", 864000000⟩, ⟨"b", 0⟩] (by decide)

/-! ## Claim C10 -/

/-- C10: when some artifact is both ranked beyond `maxCount` in the
mtime-descending order and older than `maxAgeDays`, the sweep unlinks it
in the count pass and hits it again in the age pass, so the sweep raises
`ENOENT` and the whole backup run reports failure even though a valid
non-empty artifact was produced. -/
theorem c10_overlap_fails (cfg : RetCfg) (benv : BackupEnv) (sz : Int) (f : BFile)
    (hsz : benv.dumpSize = some sz) (hnz : sz ≠ 0)
    (hnd : ((benv.dir ++ [newArtifact benv.now]).map BFile.name).Nodup)
    (hf : f ∈ (sortedFiles (benv.dir
        ++ [⟨newArtifactName benv.now, benv.now⟩])).drop cfg.maxBackups)
    (hold : benv.now - f.time > cfg.retentionDays * msPerDay) :
    (cleanOldBackups cfg benv.now
        (benv.dir ++ [newArtifact benv.now])).1.isSome
      ∧ (backupDatabase cfg benv).success = false := by
  have hmem : f.name ∈ oldDropNames cfg benv.now
      (benv.dir ++ [newArtifact benv.now]) :=
    List.mem_map.mpr ⟨f, List.mem_filter.mpr ⟨hf, by simp only [oldCheck]; exact decide_eq_true hold⟩, rfl⟩
  have heq := cleanOldBackups_eq cfg benv.now
    (benv.dir ++ [newArtifact benv.now]) hnd
  rcases hl : oldDropNames cfg benv.now
      (benv.dir ++ [newArtifact benv.now]) with _ | ⟨q, qs⟩
  · rw [hl] at hmem
    cases hmem
  · constructor
    · rw [heq, hl]
      rfl
    · unfold backupDatabase
      rw [hsz]
      simp only [if_neg hnz]
      rw [heq, hl]
      rfl

theorem c10_overlap_fails_witness :
    (backupDatabase ⟨1, 0⟩ overlapBackupEnv).success = false :=
  (c10_overlap_fails ⟨1, 0⟩ overlapBackupEnv 5 ⟨"old", 0⟩ (by decide) (by decide)
    (by decide) (by decide) (by decide)).2

/-! ## Anatomy of `finalizeStatus` -/

theorem finalizeStatus_errors (st : SystemState) : (finalizeStatus st).errors = st.errors := by
  unfold finalizeStatus
  split
  · rfl
  · split <;> rfl

theorem finalizeStatus_warnings (st : SystemState) :
    (finalizeStatus st).warnings = st.warnings := by
  unfold finalizeStatus
  split
  · rfl
  · split <;> rfl

theorem finalizeStatus_error_of_errors (st : SystemState) (h : st.errors ≠ []) :
    (finalizeStatus st).status = .error := by
  unfold finalizeStatus
  rw [if_pos (List.length_pos.mpr h)]

theorem finalizeStatus_not_healthy (st : SystemState) (h : st.warnings ≠ []) :
    (finalizeStatus st).status ≠ .healthy := by
  unfold finalizeStatus
  split
  · intro hcon
    cases hcon
  · split
    · intro hcon
      cases hcon
    · rename_i hlen
      exact absurd (List.length_pos.mpr h) hlen

/-! ## Anatomy of the per-table loop -/

theorem processTable_warnings (lk : Option SystemState) (bk : Bool) (now : Int)
    (acc : LoopAcc) (cr : String → CountRes) (t : String) :
    (processTable lk bk now acc (t, cr t)).st.warnings
      = acc.st.warnings ++ (dlWarn lk cr t).toList := by
  unfold processTable dlWarn
  cases hr : cr t with
  | err m => simp
  | ok c =>
    cases hl : lookupPrev lk t with
    | none => simp
    | some p =>
      by_cases hp : p ≠ 0
      · by_cases hlc : lossCheck p c
        · cases bk <;> simp [hp, hlc]
        · simp [hp, hlc]
      · simp [hp]

theorem processTable_balance (lk : Option SystemState) (bk : Bool) (now : Int)
    (acc : LoopAcc) (cr : String → CountRes) (t : String) :
    (processTable lk bk now acc (t, cr t)).backupAttempts + acc.st.warnings.length
      = acc.backupAttempts + (processTable lk bk now acc (t, cr t)).st.warnings.length := by
  unfold processTable
  cases hr : cr t with
  | err m => simp
  | ok c =>
    cases hl : lookupPrev lk t with
    | none => simp
    | some p =>
      by_cases hp : p ≠ 0
      · by_cases hlc : lossCheck p c
        · cases bk <;> simp [hp, hlc] <;> omega
        · simp [hp, hlc]
      · simp [hp]

theorem foldl_warnings (lk : Option SystemState) (bk : Bool) (now : Int)
    (cr : String → CountRes) (ts : List String) (acc : LoopAcc) :
    (ts.foldl (fun a t => processTable lk bk now a (t, cr t)) acc).st.warnings
      = acc.st.warnings ++ ts.filterMap (dlWarn lk cr) := by
  induction ts generalizing acc with
  | nil => simp
  | cons t ts ih =>
    rw [List.foldl_cons, ih, processTable_warnings, List.filterMap_cons]
    cases dlWarn lk cr t <;> simp

theorem foldl_balance (lk : Option SystemState) (bk : Bool) (now : Int)
    (cr : String → CountRes) (ts : List String) (acc : LoopAcc) :
    (ts.foldl (fun a t => processTable lk bk now a (t, cr t)) acc).backupAttempts
        + acc.st.warnings.length
      = acc.backupAttempts
        + (ts.foldl (fun a t => processTable lk bk now a (t, cr t)) acc).st.warnings.length := by
  induction ts generalizing acc with
  | nil => rfl
  | cons t ts ih =>
    rw [List.foldl_cons]
    have h1 := processTable_balance lk bk now acc cr t
    have h2 := ih (processTable lk bk now acc (t, cr t))
    omega

theorem runTables_warnings (lk : Option SystemState) (env : TickEnv) :
    (runTables lk env).st.warnings = CRITICAL_TABLES.filterMap (dlWarn lk env.countRes) := by
  have h := foldl_warnings lk env.backupOk env.now env.countRes CRITICAL_TABLES
    { st := initialTickState, appended := [], backupAttempts := 0 }
  simpa [runTables, initialTickState] using h

theorem runTables_warnlen (lk : Option SystemState) (env : TickEnv) :
    (runTables lk env).st.warnings.length = (runTables lk env).backupAttempts := by
  have h := foldl_balance lk env.backupOk env.now env.countRes CRITICAL_TABLES
    { st := initialTickState, appended := [], backupAttempts := 0 }
  simp only [runTables, initialTickState] at h ⊢
  simp at h
  omega

/-! ## Anatomy of one tick of `checkSystem` -/

/-- Every branch of a tick ends by inserting the `updateSystemStatus`
audit record for the tick's final state. -/
theorem checkSystem_getLast (lk : Option SystemState) (store : List StatusRecord)
    (env : TickEnv) :
    (checkSystem lk store env).appended.getLast?
      = some (auditRecord (checkSystem lk store env).finalState) := by
  simp only [checkSystem]
  split
  · split
    · split
      · split
        · simp [List.getLast?_concat]
        · simp [List.getLast?_concat]
      · simp [List.getLast?_concat]
    · split
      · simp [List.getLast?_concat]
      · simp [List.getLast?_concat]
  · simp [List.getLast?_concat]

/-- A tick with a `createBackup` invocation and a failing backup executor
never ends healthy: either the loop pushed a data-loss warning first, or
the staleness-path backup threw and the catch forced `'error'`. -/
theorem checkSystem_not_healthy (lk : Option SystemState) (store : List StatusRecord)
    (env : TickEnv) (hbk : env.backupOk = false)
    (hatt : 1 ≤ (checkSystem lk store env).backupAttempts) :
    (checkSystem lk store env).finalState.status ≠ .healthy := by
  revert hatt
  simp only [checkSystem]
  split
  · split
    · split
      · split
        · rename_i hcond
          rw [hbk] at hcond
          cases hcond
        · intro _
          simp
      · intro hatt
        apply finalizeStatus_not_healthy
        simp only []
        intro hnil
        have hlen := runTables_warnlen lk env
        rw [hnil] at hlen
        simp at hatt hlen
        omega
    · split
      · rename_i hcond
        rw [hbk] at hcond
        cases hcond
      · intro _
        simp
  · intro hatt
    simp at hatt

/-- On a connected tick the final warnings are the loop's data-loss
warnings followed by at most one backup-staleness warning. -/
theorem checkSystem_warnings (lk : Option SystemState) (store : List StatusRecord)
    (env : TickEnv) (hconn : env.connectivityOk = true) :
    ∃ tail, (checkSystem lk store env).finalState.warnings
        = CRITICAL_TABLES.filterMap (dlWarn lk env.countRes) ++ tail
      ∧ (tail = [] ∨ tail = ["No recent backup found (>24 hours)"]
          ∨ tail = ["No backup history found"]) := by
  simp only [checkSystem, hconn, if_true]
  split
  · split
    · split
      · exact ⟨["No recent backup found (>24 hours)"],
          by simp [finalizeStatus_warnings, runTables_warnings], by simp⟩
      · exact ⟨["No recent backup found (>24 hours)"],
          by simp [runTables_warnings], by simp⟩
    · exact ⟨[], by simp [finalizeStatus_warnings, runTables_warnings], by simp⟩
  · split
    · exact ⟨["No backup history found"],
        by simp [finalizeStatus_warnings, runTables_warnings], by simp⟩
    · exact ⟨["No backup history found"], by simp [runTables_warnings], by simp⟩

/-- A connected tick whose loop emitted a data-loss warning never ends
healthy. -/
theorem checkSystem_not_healthy_of_warn (lk : Option SystemState)
    (store : List StatusRecord) (env : TickEnv) (hconn : env.connectivityOk = true)
    (hne : CRITICAL_TABLES.filterMap (dlWarn lk env.countRes) ≠ []) :
    (checkSystem lk store env).finalState.status ≠ .healthy := by
  simp only [checkSystem, hconn, if_true]
  split
  · split
    · split
      · apply finalizeStatus_not_healthy
        simp [runTables_warnings, hne]
      · simp
    · apply finalizeStatus_not_healthy
      simp [runTables_warnings, hne]
  · split
    · apply finalizeStatus_not_healthy
      simp [runTables_warnings, hne]
    · simp

/-! ## The data-loss message is determined by its table name -/

theorem take_append_left {l₁ l₂ : List α} {n : Nat} (h : n ≤ l₁.length) :
    (l₁ ++ l₂).take n = l₁.take n := by
  rw [List.take_append_eq_append_take, Nat.sub_eq_zero_of_le h]
  simp

/-- The part of a data-loss message before the first number. -/
def dlMsgHead (t : String) : String :=
  "Significant data loss detected in " ++ t ++ ": Previous="

theorem dlMsg_eq_head (t : String) (p c : Nat) :
    dlMsg t p c = dlMsgHead t ++ (toString p ++ (", Current=" ++ toString c)) := by
  simp [dlMsg, dlMsgHead, String.append_assoc]

theorem dlMsg_ne_of_take {t₁ t₂ : String} (k : Nat)
    (hk₁ : k ≤ (dlMsgHead t₁).data.length) (hk₂ : k ≤ (dlMsgHead t₂).data.length)
    (hne : (dlMsgHead t₁).data.take k ≠ (dlMsgHead t₂).data.take k)
    (p₁ c₁ p₂ c₂ : Nat) : dlMsg t₁ p₁ c₁ ≠ dlMsg t₂ p₂ c₂ := by
  intro h
  apply hne
  have hd := congrArg String.data h
  rw [dlMsg_eq_head, dlMsg_eq_head] at hd
  simp only [String.data_append] at hd
  calc (dlMsgHead t₁).data.take k
      = ((dlMsgHead t₁).data
          ++ ((toString p₁).data ++ (", Current=".data ++ (toString c₁).data))).take k :=
        (take_append_left hk₁).symm
    _ = ((dlMsgHead t₂).data
          ++ ((toString p₂).data ++ (", Current=".data ++ (toString c₂).data))).take k := by
        rw [hd]
    _ = (dlMsgHead t₂).data.take k := take_append_left hk₂

/-- Data-loss messages for distinct critical tables are distinct strings,
whatever the embedded counts are. -/
theorem dlMsg_inj_tables :
    ∀ t₁ ∈ CRITICAL_TABLES, ∀ t₂ ∈ CRITICAL_TABLES, t₁ ≠ t₂ →
      ∀ p₁ c₁ p₂ c₂ : Nat, dlMsg t₁ p₁ c₁ ≠ dlMsg t₂ p₂ c₂ := by
  intro t₁ h₁ t₂ h₂ hne p₁ c₁ p₂ c₂
  fin_cases h₁ <;> fin_cases h₂ <;>
    first
      | exact absurd rfl hne
      | exact dlMsg_ne_of_take 41 (by decide) (by decide) (by decide) p₁ c₁ p₂ c₂

theorem dlMsg_ne_nrb (t : String) (p c : Nat) :
    dlMsg t p c ≠ "No recent backup found (>24 hours)" := by
  intro h
  have hd := congrArg (fun s => s.data.take 1) h
  rw [dlMsg_eq_head] at hd
  simp only [String.data_append] at hd
  rw [show (dlMsgHead t).data = "Significant data loss detected in ".data
      ++ (t.data ++ ": Previous=".data) by simp [dlMsgHead], List.append_assoc] at hd
  rw [take_append_left (by decide)] at hd
  exact absurd hd (by decide)

theorem dlMsg_ne_nbh (t : String) (p c : Nat) :
    dlMsg t p c ≠ "No backup history found" := by
  intro h
  have hd := congrArg (fun s => s.data.take 1) h
  rw [dlMsg_eq_head] at hd
  simp only [String.data_append] at hd
  rw [show (dlMsgHead t).data = "Significant data loss detected in ".data
      ++ (t.data ++ ": Previous=".data) by simp [dlMsgHead], List.append_assoc] at hd
  rw [take_append_left (by decide)] at hd
  exact absurd hd (by decide)

/-! ## Counting the data-loss warnings -/

theorem dlWarn_some {lk : Option SystemState} {cr : String → CountRes} {t m : String}
    (h : dlWarn lk cr t = some m) : ∃ p c, m = dlMsg t p c := by
  unfold dlWarn at h
  cases hr : cr t with
  | err m' =>
    simp only [hr] at h
    cases h
  | ok c =>
    cases hl : lookupPrev lk t with
    | none =>
      simp only [hr, hl] at h
      cases h
    | some p =>
      simp only [hr, hl] at h
      split at h
      · split at h
        · exact ⟨p, c, (Option.some.inj h).symm⟩
        · cases h
      · cases h

theorem dlWarn_beq_false (lk : Option SystemState) (cr : String → CountRes) (t m : String)
    (hne : ∀ p c, dlMsg t p c ≠ m) :
    (dlWarn lk cr t == some m) = false := by
  cases h : dlWarn lk cr t with
  | none => rfl
  | some m' =>
    obtain ⟨p, c, rfl⟩ := dlWarn_some h
    simp [hne p c]

theorem count_dlWarn_one (lk : Option SystemState) (cr : String → CountRes)
    (e : String) (p c : Nat) (he : e ∈ CRITICAL_TABLES)
    (hsome : dlWarn lk cr e = some (dlMsg e p c)) :
    (CRITICAL_TABLES.filterMap (dlWarn lk cr)).count (dlMsg e p c) = 1 := by
  have hother : ∀ t ∈ CRITICAL_TABLES, t ≠ e →
      (dlWarn lk cr t == some (dlMsg e p c)) = false := by
    intro t ht hne
    exact dlWarn_beq_false lk cr t _ (fun p' c' => dlMsg_inj_tables t ht e he hne p' c' p c)
  rw [List.count_filterMap]
  simp only [CRITICAL_TABLES, List.mem_cons, List.not_mem_nil, or_false] at he
  rcases he with rfl | rfl | rfl | rfl
  · have h2 := hother "schools" (by decide) (by decide)
    have h3 := hother "school_users" (by decide) (by decide)
    have h4 := hother "content" (by decide) (by decide)
    simp [CRITICAL_TABLES, List.countP_cons, hsome, h2, h3, h4]
  · have h1 := hother "user_profiles" (by decide) (by decide)
    have h3 := hother "school_users" (by decide) (by decide)
    have h4 := hother "content" (by decide) (by decide)
    simp [CRITICAL_TABLES, List.countP_cons, hsome, h1, h3, h4]
  · have h1 := hother "user_profiles" (by decide) (by decide)
    have h2 := hother "schools" (by decide) (by decide)
    have h4 := hother "content" (by decide) (by decide)
    simp [CRITICAL_TABLES, List.countP_cons, hsome, h1, h2, h4]
  · have h1 := hother "user_profiles" (by decide) (by decide)
    have h2 := hother "schools" (by decide) (by decide)
    have h3 := hother "school_users" (by decide) (by decide)
    simp [CRITICAL_TABLES, List.countP_cons, hsome, h1, h2, h3]

/-! ## Claim C1 -/

/-- C1: on every connected tick, for every critical entity present in the
baseline with non-zero count `p` and counted as `c` with
`c < p - p * 0.1`, the classified snapshot's warnings contain exactly one
occurrence of the exactly-formatted message
`"Significant data loss detected in <e>: Previous=<p>, Current=<c>"`,
and the resulting status is at least `warning`. -/
theorem c1_data_loss (lk : Option SystemState) (store : List StatusRecord) (env : TickEnv)
    (hconn : env.connectivityOk = true) (e : String) (p c : Nat)
    (he : e ∈ CRITICAL_TABLES)
    (hc : env.countRes e = .ok c)
    (hp : lookupPrev lk e = some p)
    (hloss : (c : ℚ) < (p : ℚ) - (p : ℚ) * 0.1) :
    (checkSystem lk store env).finalState.warnings.count (dlMsg e p c) = 1
    ∧ 1 ≤ ((checkSystem lk store env).finalState.status).rank := by
  have hp0 : p ≠ 0 := by
    intro h0
    rw [h0] at hloss
    simp at hloss
    exact absurd hloss (not_lt.mpr (Nat.cast_nonneg c))
  have hsome : dlWarn lk env.countRes e = some (dlMsg e p c) := by
    unfold dlWarn
    simp only [hc, hp]
    rw [if_pos hp0, if_pos (show lossCheck p c = true from decide_eq_true hloss)]
  obtain ⟨tail, htail, hcases⟩ := checkSystem_warnings lk store env hconn
  have hwne : CRITICAL_TABLES.filterMap (dlWarn lk env.countRes) ≠ [] := by
    intro hnil
    have hmem : dlMsg e p c ∈ CRITICAL_TABLES.filterMap (dlWarn lk env.countRes) :=
      List.mem_filterMap.mpr ⟨e, he, hsome⟩
    rw [hnil] at hmem
    cases hmem
  constructor
  · rw [htail, List.count_append, count_dlWarn_one lk env.countRes e p c he hsome]
    rcases hcases with rfl | rfl | rfl
    · rfl
    · simp [List.count_cons, Ne.symm (dlMsg_ne_nrb e p c)]
    · simp [List.count_cons, Ne.symm (dlMsg_ne_nbh e p c)]
  · have hnh := checkSystem_not_healthy_of_warn lk store env hconn hwne
    cases hst : (checkSystem lk store env).finalState.status
    · exact absurd hst hnh
    · simp [HStatus.rank]
    · simp [HStatus.rank]

theorem c1_data_loss_witness :
    (checkSystem (some lossBaseline) [] lossTickEnv).finalState.warnings.count
      (dlMsg "user_profiles" 100 85) = 1 :=
  (c1_data_loss (some lossBaseline) [] lossTickEnv rfl "user_profiles" 100 85
    (by decide) (by decide) (by decide) (by norm_num)).1

/-! ## Claim C2 -/

/-- C2 counterexample: on a tick with no backup history the monitor
triggers a backup, so the tick appends two records (the `'backup'` row
inserted by `backupDatabase` and the audit row), not exactly one. -/
theorem c2_counterexample :
    (checkSystem none [] tickPlainEnv).appended.length = 2
    ∧ ¬ (checkSystem none [] tickPlainEnv).appended.length = 1 := by
  decide

/-- C2 (amended): every tick appends at least one StatusRecord; the last
record appended in the tick is the `updateSystemStatus` audit row, whose
status is `initialized` iff the snapshot is healthy and `error`
otherwise; ticks that detect data loss or run a successful backup append
additional records before it. -/
theorem c2_audit_record_per_tick (lk : Option SystemState) (store : List StatusRecord)
    (env : TickEnv) :
    (checkSystem lk store env).appended ≠ []
    ∧ (checkSystem lk store env).appended.getLast?
        = some { status := if (checkSystem lk store env).finalState.status = .healthy
                             then RStatus.initialized else RStatus.error
                 lastBackupTime := none
                 errorCount := (checkSystem lk store env).finalState.errors.length } := by
  have h := checkSystem_getLast lk store env
  refine ⟨?_, ?_⟩
  · intro hnil
    rw [hnil] at h
    exact Option.noConfusion h
  · rw [h]
    rfl

/-! ## Claim C3 -/

/-- C3 (code-bug evidence): two consecutive `status='error'` INSERTs into
a `system_status` table whose maximal `error_count` is 0 leave a maximal
`error_count` of 1, not 0 + 2: the `increment_error_count` trigger
derives each inserted row's count from the `OLD` row — which does not
exist for an INSERT — rather than from the table's current maximum. -/
theorem c3_error_count_not_running :
    maxErrorCount (appendErrorRows 2 [initRow]) = 1
    ∧ ¬ maxErrorCount (appendErrorRows 2 [initRow]) = maxErrorCount [initRow] + 2 := by
  decide

/-! ## Claim C4 -/

/-- C4 counterexample: a connectivity-failure tick ends with snapshot
status `error` and appends its audit record, yet `lastKnownState` is not
replaced — it keeps the pre-tick baseline, contradicting "this
replacement happens unconditionally, including on ticks whose snapshot
status is error". -/
theorem c4_counterexample :
    (checkSystem (some lossBaseline) [] tickConnFailEnv).finalState.status = .error
    ∧ (checkSystem (some lossBaseline) [] tickConnFailEnv).appended.length = 1
    ∧ (checkSystem (some lossBaseline) [] tickConnFailEnv).newLastKnown = some lossBaseline
    ∧ ¬ (checkSystem (some lossBaseline) [] tickConnFailEnv).newLastKnown
        = some (checkSystem (some lossBaseline) [] tickConnFailEnv).finalState := by
  decide

/-- C4 (amended): the baseline is replaced with the tick's snapshot
exactly on ticks that complete the try-block — including error-status
ticks caused by per-table count failures — while ticks aborted by a
thrown error (connectivity failure, or a backup failure thrown from the
staleness check) leave the baseline unchanged. -/
theorem c4_baseline_replacement (lk : Option SystemState) (store : List StatusRecord)
    (env : TickEnv) :
    (checkSystem lk store env).newLastKnown
      = if (checkSystem lk store env).completed
          then some (checkSystem lk store env).finalState else lk := by
  simp only [checkSystem]
  split
  · split
    · split
      · split <;> rfl
      · rfl
    · split <;> rfl
  · rfl

/-! ## Claim C5 -/

/-- C5 (code-bug evidence): on a history holding a `'backup'` record with
timestamp 100 followed by an audit record with NULL `last_backup_time`,
the monitor's query (`ORDER BY last_backup_time DESC`, which defaults to
NULLS FIRST, `LIMIT 1`) returns the NULL row, masking the most recent
non-null backup timestamp 100 that `specLatestBackupTime` returns. -/
theorem c5_null_masks_backup_time :
    lastBackupQuery [backupRecord 100, incidentRecord] = some none
    ∧ specLatestBackupTime [backupRecord 100, incidentRecord] = some 100 := by
  decide

/-! ## Claim C6 -/

/-- C6: whenever the tick's snapshot has a non-empty errors list, the
classified status is `error`, regardless of count deltas and warnings
(error outranks warning outranks healthy). -/
theorem c6_errors_outrank (lk : Option SystemState) (store : List StatusRecord)
    (env : TickEnv) (h : (checkSystem lk store env).finalState.errors ≠ []) :
    (checkSystem lk store env).finalState.status = .error := by
  revert h
  simp only [checkSystem]
  split
  · split
    · split
      · split
        · intro h
          exact finalizeStatus_error_of_errors _ (by simpa [finalizeStatus_errors] using h)
        · intro _
          rfl
      · intro h
        exact finalizeStatus_error_of_errors _ (by simpa [finalizeStatus_errors] using h)
    · split
      · intro h
        exact finalizeStatus_error_of_errors _ (by simpa [finalizeStatus_errors] using h)
      · intro _
        rfl
  · intro _
    rfl

theorem c6_errors_outrank_witness :
    (checkSystem none [] tickConnFailEnv).finalState.status = .error :=
  c6_errors_outrank none [] tickConnFailEnv (by decide)

/-! ## Claim C8 -/

/-- C8 counterexample: a run producing a zero-byte artifact fails, yet
the zero-byte `.sql.gz` file *is* retained: `backupDatabase` throws at
the size check (`part_000` lines 89-91) without unlinking it, so the
artifact remains in the backup directory after the failed run. -/
theorem c8_counterexample :
    (backupDatabase ⟨5, 7⟩ ⟨[], some 0, 0⟩).success = false
    ∧ newArtifact 0 ∈ (backupDatabase ⟨5, 7⟩ ⟨[], some 0, 0⟩).fsAfter := by
  decide

/-- C8 (amended): a backup run whose artifact is absent or empty fails
(`success: false`, no partial success): no retention sweep runs and no
`'backup'` row is recorded; on a tick that attempted a backup with a
failing executor, the tick's audit record is appended with status
`error`.  The zero-byte artifact file itself, however, is not deleted:
it is left in the backup directory. -/
theorem c8_no_partial_success (cfg : RetCfg) (benv : BackupEnv)
    (lk : Option SystemState) (store : List StatusRecord) (env : TickEnv)
    (hempty : benv.dumpSize = none ∨ benv.dumpSize = some 0)
    (hbk : env.backupOk = false)
    (hatt : 1 ≤ (checkSystem lk store env).backupAttempts) :
    ((backupDatabase cfg benv).success = false
      ∧ (backupDatabase cfg benv).sweepRan = false
      ∧ (backupDatabase cfg benv).appended = [])
    ∧ (benv.dumpSize = some 0 →
        newArtifact benv.now ∈ (backupDatabase cfg benv).fsAfter)
    ∧ ((checkSystem lk store env).appended.getLast?.map StatusRecord.status)
        = some RStatus.error := by
  refine ⟨?_, ?_, ?_⟩
  · rcases hempty with h | h <;> simp [backupDatabase, h]
  · intro h0
    simp [backupDatabase, h0]
  · rw [checkSystem_getLast]
    have hnh := checkSystem_not_healthy lk store env hbk hatt
    simp [auditRecord, hnh]

theorem c8_no_partial_success_witness :
    (backupDatabase ⟨5, 7⟩ ⟨[], some 0, 0⟩).sweepRan = false :=
  (c8_no_partial_success ⟨5, 7⟩ ⟨[], some 0, 0⟩ none [] tickBackupFailEnv
    (Or.inr rfl) rfl (by decide)).1.2.1

end SupabaseDB
